import Mathlib

/-!
Verification of the TEI-XML → Markdown extractor (src/src/ingestion/extractor.py)
together with the empty-output check of its caller
(src/experiments/ground_truth/gt_runner.py, function _extract_markdown).

The document tree is modelled by the mutual inductive `Elem`/`ElemList`:
an element carries its (local) tag name, its attribute list, its leading
text (lxml `.text`, with `None` represented by the empty string), its
children in document order, and its tail text (lxml `.tail`).  All
elements of the documents of interest live in the single TEI namespace,
so tags are modelled by their local names and the `xml:id` attribute by
the literal key "xml:id".  Python dicts are modelled by insertion-ordered
association lists with overwrite-on-existing-key semantics (`dictInsert`),
matching dict iteration order.  Character strings are processed on their
`List Char` representation; the whitespace class is the ASCII part of
the Python one.
-/

-- ───────────────────────── string helpers ─────────────────────────

/-- ASCII whitespace, the characters stripped by Python str.strip and
matched by the regex class backslash-s (the Unicode extras are not used
by the extractor inputs modelled here). -/
def pyIsSpace (c : Char) : Bool :=
  c = ' ' ∨ c = '\t' ∨ c = '\n' ∨ c = '\x0B' ∨ c = '\x0C' ∨ c = '\r'

def pyStripList (l : List Char) : List Char :=
  ((l.dropWhile pyIsSpace).reverse.dropWhile pyIsSpace).reverse

/-- Python str.strip(). -/
def pyStrip (s : String) : String := ⟨pyStripList s.data⟩

def asciiLowerChar (c : Char) : Char :=
  if 'A' ≤ c ∧ c ≤ 'Z' then Char.ofNat (c.toNat + 32) else c

/-- Python str.lower() restricted to ASCII letters. -/
def lowerStr (s : String) : String := ⟨s.data.map asciiLowerChar⟩

/-- Python s.replace with a newline replaced by a space. -/
def nlToSpace (s : String) : String :=
  ⟨s.data.map (fun c => if c = '\n' then ' ' else c)⟩

/-- Python s.startswith(p). -/
def strBegins (s p : String) : Bool :=
  s.data.take p.data.length == p.data

/-- Python sep.join(parts). -/
def joinSep (sep : String) : List String → String
  | [] => ""
  | [x] => x
  | x :: y :: rest => x ++ sep ++ joinSep sep (y :: rest)

def strJoin : List String → String
  | [] => ""
  | x :: rest => x ++ strJoin rest

/-- Python s.lstrip with the hash character: drop every leading hash. -/
def lstripHash (s : String) : String := ⟨s.data.dropWhile (· = '#')⟩

/-- Python re.match of four digits against the start of s: the first four
characters exist and are digits. -/
def matchFourStart (s : String) : Bool :=
  (s.data.take 4).length == 4 && (s.data.take 4).all Char.isDigit

/-- Python s[:4]. -/
def takeFour (s : String) : String := ⟨s.data.take 4⟩

def fourDigitsHere (l : List Char) : Bool :=
  (l.take 4).length == 4 && (l.take 4).all Char.isDigit

/-- Python re.search of four digits in s: the first run of four
consecutive digits, scanning left to right. -/
def searchFour : List Char → Option String
  | [] => none
  | c :: rest =>
    if fourDigitsHere (c :: rest) then some ⟨(c :: rest).take 4⟩
    else searchFour rest

/-- The regex that recognises a bare id "b" followed by one or more
digits, anchored on both sides (re.match of b with a digit run and an
end anchor; a trailing newline is impossible in an XML attribute value
after attribute-value normalisation, so the end anchor is exact). -/
def bareBId (s : String) : Bool :=
  match s.data with
  | 'b' :: rest => !(rest == []) && rest.all Char.isDigit
  | _ => false

-- ───────────────────────── document tree ─────────────────────────

mutual
inductive Elem where
  | mk (tag : String) (attrs : List (String × String)) (text : String)
       (children : ElemList) (tail : String)
inductive ElemList where
  | nil
  | cons (hd : Elem) (tl : ElemList)
end

def Elem.tag : Elem → String | .mk t _ _ _ _ => t
def Elem.attrs : Elem → List (String × String) | .mk _ a _ _ _ => a
def Elem.text : Elem → String | .mk _ _ x _ _ => x
def Elem.children : Elem → ElemList | .mk _ _ _ c _ => c
def Elem.tail : Elem → String | .mk _ _ _ _ l => l

def ElemList.toList : ElemList → List Elem
  | .nil => []
  | .cons h t => h :: t.toList

/-- Python element.get(key, default empty): first attribute with the key. -/
def elemAttr (el : Elem) (k : String) : String :=
  match el.attrs.find? (fun p => p.1 == k) with
  | some p => p.2
  | none => ""

-- All strict descendants of an element, in document (pre-)order.
mutual
def Elem.descendants : Elem → List Elem
  | .mk _ _ _ cs _ => ElemList.descList cs
def ElemList.descList : ElemList → List Elem
  | .nil => []
  | .cons c rest => c :: (Elem.descendants c ++ ElemList.descList rest)
end

-- lxml itertext, concatenated: leading text, then for every child its
-- own itertext followed by its tail.
mutual
def itertext : Elem → String
  | .mk _ _ x cs _ => x ++ itertextL cs
def itertextL : ElemList → String
  | .nil => ""
  | .cons c rest => itertext c ++ c.tail ++ itertextL rest
end

def childrenWithTag (el : Elem) (t : String) : List Elem :=
  el.children.toList.filter (fun c => c.tag == t)

-- ───────────────────────── Python dict model ─────────────────────────

def dictFind (d : List (String × α)) (k : String) : Option α :=
  (d.find? (fun p => p.1 == k)).map (fun p => p.2)

def dictContains (d : List (String × α)) (k : String) : Bool :=
  (dictFind d k).isSome

/-- Python d[k] = v on an insertion-ordered dict: overwrite in place when
the key exists, otherwise append. -/
def dictInsert (d : List (String × α)) (k : String) (v : α) : List (String × α) :=
  if d.any (fun p => p.1 == k) then
    d.map (fun p => if p.1 == k then (k, v) else p)
  else d ++ [(k, v)]

-- ───────────────────────── reference table builder ─────────────────────────

structure RefEntry where
  id : String
  authors : List String
  year : String
  title : String
  venue : String
  label : String
deriving DecidableEq

/-- The safe single-value text extraction of the source (function
_get_text specialised to a child-axis path): text of the first child
with the given tag, stripped, defaulting to the empty string. -/
def getTextChild (el : Elem) (t : String) : String :=
  match (childrenWithTag el t).head? with
  | some c => pyStrip c.text
  | none => ""

/-- The persName nodes addressed by the author xpath of the source:
children of author children of any analytic or monogr descendant of the
entry, in document order. -/
def bibPersNames (bib : Elem) : List Elem :=
  ((bib.descendants.filter (fun d => d.tag == "analytic" || d.tag == "monogr")).flatMap
    (fun m => (childrenWithTag m "author").flatMap
      (fun a => childrenWithTag a "persName")))

/-- Author surnames of a bibliography entry: a persName contributes only
if its surname text is nonempty. -/
def bibAuthors (bib : Elem) : List String :=
  ((bibPersNames bib).map (fun p => getTextChild p "surname")).filter
    (fun s => !(s == ""))

/-- The year scan of the source over all date descendants: prefer a
"when" attribute starting with four digits (take those four), otherwise
search the stripped free text for the first four-digit run; the first
date that yields either stops the scan. -/
def bibYearScan : List Elem → String
  | [] => ""
  | d :: rest =>
    let w := elemAttr d "when"
    if matchFourStart w then takeFour w
    else
      match searchFour (pyStrip d.text).data with
      | some y => y
      | none => bibYearScan rest

def bibYear (bib : Elem) : String :=
  bibYearScan (bib.descendants.filter (fun d => d.tag == "date"))

/-- Text of the first title child carrying the given level attribute of
the first matching container descendant (the xpath of _get_text applied
to container slash title with a level predicate). -/
def firstLevelTitle (bib : Elem) (container level : String) : String :=
  match ((bib.descendants.filter (fun d => d.tag == container)).flatMap
      (fun m => m.children.toList.filter
        (fun c => c.tag == "title" && elemAttr c "level" == level))).head? with
  | some c => pyStrip c.text
  | none => ""

def bibTitle (bib : Elem) : String :=
  let t1 := firstLevelTitle bib "analytic" "a"
  if !(t1 == "") then t1
  else
    let t2 := firstLevelTitle bib "monogr" "m"
    if !(t2 == "") then t2
    else firstLevelTitle bib "monogr" "j"

def bibSettlement (bib : Elem) : String :=
  match ((bib.descendants.filter (fun d => d.tag == "monogr")).flatMap
      (fun m => (childrenWithTag m "meeting").flatMap
        (fun mt => (childrenWithTag mt "address").flatMap
          (fun ad => childrenWithTag ad "settlement")))).head? with
  | some c => pyStrip c.text
  | none => ""

def bibVenue (bib : Elem) : String :=
  let v := firstLevelTitle bib "monogr" "j"
  if !(v == "") then v else bibSettlement bib

/-- Human-readable label of the source: one author gives "Surname, Year",
two give "A and B, Year", three or more give "First et al., Year", none
gives the year or, failing that, the raw id. -/
def mkLabel (authors : List String) (year xml_id : String) : String :=
  match authors with
  | [] => if !(year == "") then year else xml_id
  | [a] => a ++ ", " ++ year
  | [a, b] => a ++ " and " ++ b ++ ", " ++ year
  | a :: _ :: _ :: _ => a ++ " et al., " ++ year

/-- Per-entry processing of _parse_references: extract the fields, skip
the entry when it lacks an id, when it is entirely unparseable (no
authors, no title, no year), or when the caption-filter gate fires (no
title and: no year, or no authors, or a bare b-digits id, or exactly one
author and no year). -/
def refEntryOf (bib : Elem) : Option RefEntry :=
  let xml_id := elemAttr bib "xml:id"
  if xml_id = "" then none
  else
    let authors := bibAuthors bib
    let year := bibYear bib
    let title := bibTitle bib
    let venue := bibVenue bib
    let label := mkLabel authors year xml_id
    if authors = [] ∧ title = "" ∧ year = "" then none
    else if title = "" ∧ (year = "" ∨ authors = [] ∨ bareBId xml_id = true
        ∨ (authors.length = 1 ∧ year = "")) then none
    else some ⟨xml_id, authors, year, title, venue, label⟩

/-- The biblStruct children of every listBibl node of the document. -/
def biblStructs (root : Elem) : List Elem :=
  ((root :: root.descendants).filter (fun n => n.tag == "listBibl")).flatMap
    (fun lb => childrenWithTag lb "biblStruct")

def parse_references (root : Elem) : List (String × RefEntry) :=
  (biblStructs root).foldl
    (fun acc bib =>
      match refEntryOf bib with
      | some r => dictInsert acc r.id r
      | none => acc)
    []

-- ───────────────────────── footnote table builder ─────────────────────────

/-- The footnote scan of the source (function with the same name but a leading underscore): every note node with place "foot", its id mapped to
its stripped inner text; entries with empty id or empty text dropped. -/
def parse_footnotes (root : Elem) : List (String × String) :=
  ((root :: root.descendants).filter
      (fun n => n.tag == "note" && elemAttr n "place" == "foot")).foldl
    (fun acc note =>
      let xml_id := elemAttr note "xml:id"
      let txt := pyStrip (itertext note)
      if !(xml_id == "") && !(txt == "") then dictInsert acc xml_id txt else acc)
    []

-- ───────────────────────── section filtering ─────────────────────────

/-- Tags skipped entirely by the renderer (SKIP_TAGS of the source). -/
def SKIP_TAGS : List String :=
  ["formula", "figure", "table", "cell", "row", "label", "graphic", "figDesc", "trash"]

/-- EXCLUDED_SECTIONS of the source (a Python set used only through
membership, hence a list here). -/
def EXCLUDED_SECTIONS : List String :=
  ["conclusion", "conclusions", "discussion", "related work", "related works",
   "acknowledgement", "acknowledgements", "acknowledgment", "acknowledgments",
   "funding", "conflict of interest", "competing interests",
   "author contributions", "ethics statement", "broader impact", "limitations",
   "supplementary", "supplementary material", "supplementary materials",
   "supplementary details", "appendix"]

def excludedHeadStarts : List String := ["appendix", "supplementary", "proof"]

/-- The lettered-appendix regex: a letter between a and f, a dot, then a
whitespace character, anchored at the start. -/
def letteredAppendix (h : String) : Bool :=
  match h.data with
  | a :: '.' :: c :: _ => decide ('a' ≤ a ∧ a ≤ 'f') && pyIsSpace c
  | _ => false

/-- The section filter of the source: trim and lowercase, then exact membership in
the exclusion set, or one of the excluded prefixes, or the
lettered-appendix pattern. -/
def is_excluded_section (heading : String) : Bool :=
  let h := lowerStr (pyStrip heading)
  if h ∈ EXCLUDED_SECTIONS then true
  else if excludedHeadStarts.any (fun p => strBegins h p) then true
  else if letteredAppendix h then true
  else false

-- ───────────────────────── structural renderer ─────────────────────────

/-- Render state threaded through the traversal: the footnote_counters
dict (target id to assigned ordinal, in insertion order) and the
used_footnotes log of (ordinal, id, text) in assignment order. -/
structure RenderState where
  counters : List (String × Nat)
  used : List (Nat × String × String)
deriving DecidableEq

/-- The leading-text part prepended by _children_to_markdown: the own
text with newlines replaced by spaces, contributed only when the text is
truthy (nonempty). -/
def leadText (s : String) : String :=
  if !(s == "") then nlToSpace s else ""

/-- The tail part appended after a child by _children_to_markdown. -/
def tailText (s : String) : String :=
  if !(s == "") then nlToSpace s else ""

-- element_to_markdown is the dispatch of the source (skip tags, head,
-- div with the section filter, bibliographic ref, footnote ref, p,
-- default recursion); child_loop is the child loop of
-- _children_to_markdown, rendering every child and interleaving its
-- tail.  The two branches of the source that call _children_to_markdown
-- appear here as leadText of the own text prepended to the child loop.
mutual
def element_to_markdown (refs : List (String × RefEntry)) (fns : List (String × String)) :
    Elem → Nat → RenderState → String × RenderState
  | .mk tag attrs text cs tl, depth, st =>
    let el := Elem.mk tag attrs text cs tl
    if tag ∈ SKIP_TAGS then ("", st)
    else if tag = "head" then
      let n := elemAttr el "n"
      let txt := pyStrip (itertext el)
      let pre := if !(n == "") then n ++ " " else ""
      let hashes : String := ⟨List.replicate (min (depth + 2) 6) '#'⟩
      ("\n\n" ++ hashes ++ " " ++ pre ++ txt ++ "\n\n", st)
    else if tag = "div" then
      match (cs.toList.filter (fun c => c.tag == "head")).head? with
      | some h =>
        if is_excluded_section (pyStrip (itertext h)) then ("", st)
        else
          let p := child_loop refs fns cs (depth + 1) st
          (leadText text ++ p.1, p.2)
      | none =>
        let p := child_loop refs fns cs (depth + 1) st
        (leadText text ++ p.1, p.2)
    else if tag = "ref" ∧ elemAttr el "type" = "bibr" then
      let target := lstripHash (elemAttr el "target")
      if target ≠ "" then
        match dictFind refs target with
        | some r => ("[" ++ r.label ++ "]", st)
        | none => ("[" ++ pyStrip (itertext el) ++ "]", st)
      else ("[" ++ pyStrip (itertext el) ++ "]", st)
    else if tag = "ref" ∧ elemAttr el "type" = "foot" then
      let target := lstripHash (elemAttr el "target")
      match dictFind fns target with
      | some txt =>
        match dictFind st.counters target with
        | some n => ("[^" ++ toString n ++ "]", st)
        | none =>
          let n := st.counters.length + 1
          ("[^" ++ toString n ++ "]",
           ⟨st.counters ++ [(target, n)], st.used ++ [(n, target, txt)]⟩)
      | none => ("", st)
    else if tag = "p" then
      let p := child_loop refs fns cs depth st
      let inner := leadText text ++ p.1
      let t := pyStrip inner
      if t = "" then ("", p.2)
      else ("\n\n" ++ t ++ "\n\n", p.2)
    else
      let lead := nlToSpace text
      let p := child_loop refs fns cs depth st
      (lead ++ (leadText text ++ p.1), p.2)
def child_loop (refs : List (String × RefEntry)) (fns : List (String × String)) :
    ElemList → Nat → RenderState → String × RenderState
  | .nil, _, st => ("", st)
  | .cons c rest, depth, st =>
    let p := element_to_markdown refs fns c depth st
    let q := child_loop refs fns rest depth p.2
    (p.1 ++ tailText c.tail ++ q.1, q.2)
end

/-- The children helper of the source: the own leading text followed by
every child rendered in order, each followed by its tail text. -/
def children_to_markdown (refs : List (String × RefEntry)) (fns : List (String × String))
    (el : Elem) (depth : Nat) (st : RenderState) : String × RenderState :=
  let p := child_loop refs fns el.children depth st
  (leadText el.text ++ p.1, p.2)

-- ───────────────────────── document assembler ─────────────────────────

/-- Title from the main-title xpath: the first title child with type main
of any titleStmt node, stripped. -/
def docTitle (root : Elem) : String :=
  match (((root :: root.descendants).filter (fun n => n.tag == "titleStmt")).flatMap
      (fun ts => ts.children.toList.filter
        (fun c => c.tag == "title" && elemAttr c "type" == "main"))).head? with
  | some c => pyStrip c.text
  | none => ""

/-- Author display names from the front matter: persName children of
author descendants of any sourceDesc node; first forename of type first
and the surname, joined and stripped; empty results dropped. -/
def docAuthors (root : Elem) : List String :=
  ((((root :: root.descendants).filter (fun n => n.tag == "sourceDesc")).flatMap
      (fun sd => sd.descendants.filter (fun d => d.tag == "author"))).flatMap
    (fun a => childrenWithTag a "persName")).foldr
    (fun pn acc =>
      let forename :=
        match (pn.children.toList.filter
            (fun c => c.tag == "forename" && elemAttr c "type" == "first")).head? with
        | some c => pyStrip c.text
        | none => ""
      let surname := getTextChild pn "surname"
      let full := pyStrip (forename ++ " " ++ surname)
      if !(full == "") then full :: acc else acc)
    []

/-- Abstract section: every p descendant of any abstract node; when any
exist, an Abstract heading, each paragraph text stripped, then a rule. -/
def abstractSection (root : Elem) : String :=
  let ps := ((root :: root.descendants).filter (fun n => n.tag == "abstract")).flatMap
    (fun a => a.descendants.filter (fun d => d.tag == "p"))
  if ps.isEmpty then ""
  else
    "## Abstract\n\n" ++ strJoin (ps.map (fun p => pyStrip (itertext p) ++ "\n\n"))
      ++ "---\n\n"

/-- The body element: first body child of a text child of the root. -/
def bodyOf (root : Elem) : Option Elem :=
  ((childrenWithTag root "text").flatMap (fun t => childrenWithTag t "body")).head?

def bodyDivs (root : Elem) : List Elem :=
  match bodyOf root with
  | some b => childrenWithTag b "div"
  | none => []

/-- The body loop of extract_markdown: render every top-level div at
depth zero, accumulating the markdown and the render state. -/
def renderDivs (refs : List (String × RefEntry)) (fns : List (String × String)) :
    List Elem → RenderState → String × RenderState
  | [], st => ("", st)
  | d :: rest, st =>
    let p := element_to_markdown refs fns d 0 st
    let q := renderDivs refs fns rest p.2
    (p.1 ++ q.1, q.2)

/-- Stable insertion into a list sorted by the first component (the
ordinal), used to model the stable Python sorted with the ordinal key. -/
def insertByFst (x : Nat × String × String) :
    List (Nat × String × String) → List (Nat × String × String)
  | [] => [x]
  | y :: ys => if x.1 ≤ y.1 then x :: y :: ys else y :: insertByFst x ys

def sortByFst : List (Nat × String × String) → List (Nat × String × String)
  | [] => []
  | x :: xs => insertByFst x (sortByFst xs)

/-- The Footnotes section emitted when any footnote was used: the used
log sorted by ordinal, each entry as a caret reference line. -/
def footnotesSectionOf (used : List (Nat × String × String)) : String :=
  "\n\n---\n\n## Footnotes\n\n"
    ++ strJoin ((sortByFst used).map
      (fun u => "[^" ++ toString u.1 ++ "]: " ++ u.2.2 ++ "\n\n"))

/-- The References section: every table entry in insertion order. -/
def referencesSectionOf (refs : List (String × RefEntry)) : String :=
  "\n\n---\n\n## References\n\n"
    ++ strJoin (refs.map (fun pr =>
      let r := pr.2
      let authorsStr := if r.authors = [] then "Unknown" else joinSep ", " r.authors
      let venueStr := if !(r.venue == "") then " *" ++ r.venue ++ "*." else ""
      "- **[" ++ r.label ++ "]** " ++ authorsStr ++ " (" ++ r.year ++ "). "
        ++ r.title ++ "." ++ venueStr ++ "\n\n"))

/-- extract_markdown of the source, operating on the already-parsed root
element: front matter, an unconditional horizontal rule, the abstract,
the filtered body, used footnotes, and the reference list. -/
def extract_markdown (root : Elem) : String :=
  let refs := parse_references root
  let fns := parse_footnotes root
  let title := docTitle root
  let md1 := if !(title == "") then "# " ++ title ++ "\n\n" else ""
  let authors := docAuthors root
  let md2 := md1 ++ (if authors ≠ [] then
    "**Authors:** " ++ joinSep ", " authors ++ "\n\n" else "")
  let md3 := md2 ++ "---\n\n"
  let md4 := md3 ++ abstractSection root
  let body := renderDivs refs fns (bodyDivs root) ⟨[], []⟩
  let md5 := md4 ++ body.1
  let md6 := md5 ++ (if body.2.used ≠ [] then footnotesSectionOf body.2.used else "")
  let md7 := md6 ++ (if refs ≠ [] then referencesSectionOf refs else "")
  md7

/-- The empty-output gate of the caller (gt_runner, _extract_markdown):
raise on a blank result, persist the markdown otherwise. -/
def checkOutput (md : String) : Except String String :=
  if pyStrip md = "" then Except.error "Empty markdown output"
  else Except.ok md

def extract_markdown_checked (root : Elem) : Except String String :=
  checkOutput (extract_markdown root)

/-- Build an ElemList from a list (used to write concrete documents). -/
def toEL : List Elem → ElemList
  | [] => ElemList.nil
  | x :: xs => ElemList.cons x (toEL xs)

-- ───────────────────────── statement-level predicates ─────────────────────────

/-- The render-state invariant maintained by one rendering pass: the
ordinals of the used-footnote log are exactly 1, 2, ... in log order, and
the counters dict is precisely the log viewed as id-to-ordinal pairs. -/
def StateInv (st : RenderState) : Prop :=
  st.used.map (fun u => u.1) = List.range' 1 st.used.length
  ∧ st.counters = st.used.map (fun u => (u.2.1, u.1))

/-- A string that is empty or consists of whitespace only. -/
def wsOnly (s : String) : Bool := s.data.all pyIsSpace

-- ───────────────────────── concrete documents ─────────────────────────
-- Small concrete elements and documents used to instantiate the
-- theorems below on explicit inputs.

/-- A bibliography entry with a single author Devlin, year 2019 and an
article-level title. -/
def bibDevlin : Elem := Elem.mk "biblStruct" [("xml:id","ref1")] ""
  (toEL [Elem.mk "analytic" [] ""
          (toEL [Elem.mk "title" [("level","a")] "BERT" ElemList.nil "",
                 Elem.mk "author" [] ""
                   (toEL [Elem.mk "persName" [] ""
                           (toEL [Elem.mk "surname" [] "Devlin" ElemList.nil ""]) ""]) ""]) "",
         Elem.mk "monogr" [] ""
          (toEL [Elem.mk "imprint" [] ""
                  (toEL [Elem.mk "date" [("when","2019")] "" ElemList.nil ""]) ""]) ""]) ""

/-- A mis-parsed caption entry: a bare b-digits id and nothing else. -/
def bibJunk : Elem := Elem.mk "biblStruct" [("xml:id","b59")] "" ElemList.nil ""

/-- A one-entry document whose root is the bibliography list. -/
def refRoot : Elem := Elem.mk "listBibl" [] "" (toEL [bibDevlin]) ""

/-- An inline citation marker pointing at ref1, raw text 1. -/
def citeElem : Elem := Elem.mk "ref" [("type","bibr"),("target","#ref1")] "1" ElemList.nil ""

/-- An inline citation marker with an unresolvable target. -/
def citeBad : Elem := Elem.mk "ref" [("type","bibr"),("target","#zz")] "12" ElemList.nil ""

/-- A footnote marker pointing at f1. -/
def footElem : Elem := Elem.mk "ref" [("type","foot"),("target","#f1")] "1" ElemList.nil ""

/-- A one-footnote table. -/
def fns1 : List (String × String) := [("f1","Note one")]

/-- A formula node with a nested paragraph holding text and a footnote
marker, to exercise noise suppression. -/
def fmlElem : Elem := Elem.mk "formula" [] "E = mc2"
  (toEL [Elem.mk "p" [] "inner " (toEL [footElem]) ""]) ""

/-- A Conclusion section with a citation-bearing paragraph. -/
def conclDiv : Elem := Elem.mk "div" []
  "" (toEL [Elem.mk "head" [] "Conclusion" ElemList.nil "",
            Elem.mk "p" [] "We conclude Y " (toEL [citeElem]) ""]) ""

/-- A generic container with leading text and no children. -/
def hiElem : Elem := Elem.mk "hi" [] "x" ElemList.nil ""

/-- The empty document: a bare root with nothing in it. -/
def emptyDoc : Elem := Elem.mk "TEI" [] "" ElemList.nil ""

-- ───────────────────────── helper lemmas ─────────────────────────

@[simp] theorem Elem.tag_mk (t a x c l) : (Elem.mk t a x c l).tag = t := rfl
@[simp] theorem Elem.attrs_mk (t a x c l) : (Elem.mk t a x c l).attrs = a := rfl
@[simp] theorem Elem.text_mk (t a x c l) : (Elem.mk t a x c l).text = x := rfl
@[simp] theorem Elem.children_mk (t a x c l) : (Elem.mk t a x c l).children = c := rfl
@[simp] theorem Elem.tail_mk (t a x c l) : (Elem.mk t a x c l).tail = l := rfl


theorem refEntryOf_some_iff (bib : Elem) :
    (refEntryOf bib).isSome = true ↔
      elemAttr bib "xml:id" ≠ ""
      ∧ ¬ (bibAuthors bib = [] ∧ bibTitle bib = "" ∧ bibYear bib = "")
      ∧ ¬ (bibTitle bib = "" ∧ (bibYear bib = "" ∨ bibAuthors bib = []
            ∨ bareBId (elemAttr bib "xml:id") = true
            ∨ ((bibAuthors bib).length = 1 ∧ bibYear bib = ""))) := by
  simp only [refEntryOf]
  split_ifs with h1 h2 h3 <;> simp_all

theorem refEntryOf_fields (bib : Elem) (r : RefEntry) (h : refEntryOf bib = some r) :
    r.id = elemAttr bib "xml:id" ∧ r.authors = bibAuthors bib ∧ r.year = bibYear bib
      ∧ r.label = mkLabel (bibAuthors bib) (bibYear bib) (elemAttr bib "xml:id") := by
  simp only [refEntryOf] at h
  split_ifs at h
  cases h
  exact ⟨rfl, rfl, rfl, rfl⟩

-- ───────────────────────── claim theorems ─────────────────────────

/-- C1: for every bibliography entry that carries an id, the entry is
excluded from the reference table exactly when (it has no authors, no
title and no year) or (it has no title and: no year, or no authors, or a
bare b-digits id, or exactly one author and no year); every other entry
with an id is included. -/
theorem c1_validity_gate (bib : Elem) (h : elemAttr bib "xml:id" ≠ "") :
    (refEntryOf bib).isSome = false ↔
      ((bibAuthors bib = [] ∧ bibTitle bib = "" ∧ bibYear bib = "")
       ∨ (bibTitle bib = "" ∧ (bibYear bib = "" ∨ bibAuthors bib = []
           ∨ bareBId (elemAttr bib "xml:id") = true
           ∨ ((bibAuthors bib).length = 1 ∧ bibYear bib = "")))) := by
  have hs := refEntryOf_some_iff bib
  constructor
  · intro hnone
    by_contra hor
    have hsome : (refEntryOf bib).isSome = true :=
      hs.mpr ⟨h, fun a => hor (Or.inl a), fun b => hor (Or.inr b)⟩
    rw [hsome] at hnone
    cases hnone
  · intro hor
    cases hcase : (refEntryOf bib).isSome with
    | false => rfl
    | true =>
      rcases hs.mp hcase with ⟨-, hn1, hn2⟩
      rcases hor with h1 | h2
      · exact absurd h1 hn1
      · exact absurd h2 hn2

/-- Witness for C1 at the caption entry bibJunk: the id is nonempty and
the gate excludes the entry. -/
theorem c1_validity_gate_witness :
    elemAttr bibJunk "xml:id" ≠ ""
    ∧ ((refEntryOf bibJunk).isSome = false ↔
      ((bibAuthors bibJunk = [] ∧ bibTitle bibJunk = "" ∧ bibYear bibJunk = "")
       ∨ (bibTitle bibJunk = "" ∧ (bibYear bibJunk = "" ∨ bibAuthors bibJunk = []
           ∨ bareBId (elemAttr bibJunk "xml:id") = true
           ∨ ((bibAuthors bibJunk).length = 1 ∧ bibYear bibJunk = ""))))) :=
  ⟨by decide, c1_validity_gate bibJunk (by decide)⟩

/-- C5: for every entry retained in the table, the label is the author
surnames and year rendered as Surname-comma-Year for one author, A and B
for two, First et al. for three or more, and the year or the raw id for
none; a single author Devlin with year 2019 yields Devlin, 2019. -/
theorem c5_label_formation :
    (∀ (bib : Elem) (r : RefEntry), refEntryOf bib = some r →
       ((∀ a, r.authors = [a] → r.label = a ++ ", " ++ r.year)
      ∧ (∀ a b, r.authors = [a, b] → r.label = a ++ " and " ++ b ++ ", " ++ r.year)
      ∧ (∀ a b c rest, r.authors = a :: b :: c :: rest → r.label = a ++ " et al., " ++ r.year)
      ∧ (r.authors = [] → r.label = (if r.year ≠ "" then r.year else r.id))))
  ∧ mkLabel ["Devlin"] "2019" "ref1" = "Devlin, 2019" := by
  constructor
  · intro bib r h
    obtain ⟨hid, hau, hyr, hlb⟩ := refEntryOf_fields bib r h
    have hlb2 : r.label = mkLabel r.authors r.year r.id := by
      rw [hlb, hau, hyr, hid]
    refine ⟨?_, ?_, ?_, ?_⟩
    · intro a ha; rw [hlb2, ha]; rfl
    · intro a b hab; rw [hlb2, hab]; rfl
    · intro a b c rest habc; rw [hlb2, habc]; rfl
    · intro hnil
      rw [hlb2, hnil]
      by_cases hy : r.year = "" <;> simp [mkLabel, hy]
  · rfl

/-- Witness for C5 at bibDevlin: the retained entry has the label
Devlin, 2019 formed by the one-author rule. -/
theorem c5_label_formation_witness :
    refEntryOf bibDevlin = some ⟨"ref1", ["Devlin"], "2019", "BERT", "", "Devlin, 2019"⟩
    ∧ (⟨"ref1", ["Devlin"], "2019", "BERT", "", "Devlin, 2019"⟩ : RefEntry).label
        = "Devlin" ++ ", " ++ (⟨"ref1", ["Devlin"], "2019", "BERT", "", "Devlin, 2019"⟩ : RefEntry).year :=
  ⟨by decide,
   (c5_label_formation.1 bibDevlin _ (by decide)).1 "Devlin" (by decide)⟩

/-- C6: a node whose tag is a noise kind renders to the empty string with
the render state untouched, so nothing below it contributes output or
footnote numbering. -/
theorem c6_noise_tags (refs : List (String × RefEntry)) (fns : List (String × String))
    (el : Elem) (d : Nat) (st : RenderState) (h : el.tag ∈ SKIP_TAGS) :
    element_to_markdown refs fns el d st = ("", st) := by
  cases el with
  | mk t a x cs l =>
    simp only [Elem.tag_mk] at h
    simp only [element_to_markdown]
    rw [if_pos h]

/-- Witness for C6 at a formula node containing a paragraph with text and
a resolvable footnote marker: output empty, state unchanged. -/
theorem c6_noise_tags_witness :
    fmlElem.tag ∈ SKIP_TAGS
    ∧ element_to_markdown [] fns1 fmlElem 0 ⟨[], []⟩ = ("", ⟨[], []⟩) :=
  ⟨by decide, c6_noise_tags [] fns1 fmlElem 0 ⟨[], []⟩ (by decide)⟩

/-- C3: a section container whose heading satisfies the exclusion
predicate renders immediately to the empty string with the state
untouched, so its whole subtree contributes nothing; a heading whose
trimmed lowercase form is conclusion is excluded in any case variant,
and the lettered heading A. Proof of Theorem 1 is excluded. -/
theorem c3_section_exclusion :
    (∀ (refs : List (String × RefEntry)) (fns : List (String × String))
        (el hd : Elem) (d : Nat) (st : RenderState),
        el.tag = "div" →
        (el.children.toList.filter (fun c => c.tag == "head")).head? = some hd →
        is_excluded_section (pyStrip (itertext hd)) = true →
        element_to_markdown refs fns el d st = ("", st))
  ∧ (∀ s : String, lowerStr (pyStrip s) = "conclusion" → is_excluded_section s = true)
  ∧ is_excluded_section "A. Proof of Theorem 1" = true := by
  refine ⟨?_, ?_, by decide⟩
  · intro refs fns el hd d st htag hhead hexcl
    cases el with
    | mk t a x cs l =>
      simp only [Elem.tag_mk] at htag
      simp only [Elem.children_mk] at hhead
      subst htag
      simp only [element_to_markdown]
      rw [if_pos trivial, hhead]
      exact if_pos hexcl
  · intro s hs
    simp only [is_excluded_section, hs]
    decide

/-- Witness for C3 at the Conclusion section conclDiv, whose paragraph
carries a resolvable citation marker: the rendering is empty and the
state untouched. -/
theorem c3_section_exclusion_witness :
    conclDiv.tag = "div"
    ∧ element_to_markdown (parse_references refRoot) [] conclDiv 0 ⟨[], []⟩ = ("", ⟨[], []⟩) :=
  ⟨by decide,
   c3_section_exclusion.1 (parse_references refRoot) [] conclDiv
     (Elem.mk "head" [] "Conclusion" ElemList.nil "") 0 ⟨[], []⟩
     (by decide) (by rfl) (by decide)⟩

theorem refEntryOf_id_ne_empty (bib : Elem) (r : RefEntry) (h : refEntryOf bib = some r) :
    r.id ≠ "" := by
  have hfields := refEntryOf_fields bib r h
  have hsome : (refEntryOf bib).isSome = true := by rw [h]; rfl
  have hid := (refEntryOf_some_iff bib).mp hsome
  rw [hfields.1]
  exact hid.1

theorem dictInsert_keys_ne (d : List (String × α)) (k : String) (v : α)
    (hd : ∀ p ∈ d, p.1 ≠ "") (hk : k ≠ "") :
    ∀ p ∈ dictInsert d k v, p.1 ≠ "" := by
  intro p hp
  simp only [dictInsert] at hp
  split_ifs at hp
  · rcases List.mem_map.mp hp with ⟨q, hq, hpq⟩
    by_cases hqk : q.1 == k
    · simp only [hqk, if_pos rfl] at hpq
      rw [← hpq]
      exact hk
    · simp only [hqk] at hpq
      rw [← hpq]
      exact hd q hq
  · rcases List.mem_append.mp hp with hq | hq
    · exact hd p hq
    · simp only [List.mem_singleton] at hq
      rw [hq]
      exact hk

theorem parse_references_keys_ne (root : Elem) :
    ∀ p ∈ parse_references root, p.1 ≠ "" := by
  unfold parse_references
  generalize biblStructs root = bibs
  have hgen : ∀ (l : List Elem) (acc : List (String × RefEntry)),
      (∀ p ∈ acc, p.1 ≠ "") →
      ∀ p ∈ l.foldl (fun acc bib =>
          match refEntryOf bib with
          | some r => dictInsert acc r.id r
          | none => acc) acc, p.1 ≠ "" := by
    intro l
    induction l with
    | nil => intro acc hacc; simpa using hacc
    | cons b bs ih =>
      intro acc hacc
      simp only [List.foldl_cons]
      cases hb : refEntryOf b with
      | none => exact ih acc hacc
      | some r =>
        exact ih _ (dictInsert_keys_ne acc r.id r hacc (refEntryOf_id_ne_empty b r hb))
  exact hgen bibs [] (by simp)

theorem dictFind_none_of_keys_ne (d : List (String × α))
    (hd : ∀ p ∈ d, p.1 ≠ "") : dictFind d "" = none := by
  have hfind : List.find? (fun p => p.1 == "") d = none :=
    List.find?_eq_none.mpr (by intro p hp; simpa using hd p hp)
  simp [dictFind, hfind]

/-- C4: an inline bibliographic citation marker resolves its target id,
leading hashes stripped, against the reference table: a hit renders as
the bracketed label, a miss (absent, empty or unknown target) renders as
the bracketed raw inline text; either way the render state is untouched
and rendering continues. -/
theorem c4_citation_marker (root : Elem) (fns : List (String × String))
    (el : Elem) (d : Nat) (st : RenderState)
    (h1 : el.tag = "ref") (h2 : elemAttr el "type" = "bibr") :
    (∀ r : RefEntry,
        dictFind (parse_references root) (lstripHash (elemAttr el "target")) = some r →
        element_to_markdown (parse_references root) fns el d st
          = ("[" ++ r.label ++ "]", st))
  ∧ (dictFind (parse_references root) (lstripHash (elemAttr el "target")) = none →
        element_to_markdown (parse_references root) fns el d st
          = ("[" ++ pyStrip (itertext el) ++ "]", st)) := by
  cases el with
  | mk t a x cs l =>
    simp only [Elem.tag_mk] at h1
    subst h1
    constructor
    · intro r hfind
      have htgt : lstripHash (elemAttr (Elem.mk "ref" a x cs l) "target") ≠ "" := by
        intro hempty
        rw [hempty] at hfind
        rw [dictFind_none_of_keys_ne _ (parse_references_keys_ne root)] at hfind
        cases hfind
      simp [element_to_markdown, SKIP_TAGS, h2, htgt, hfind]
    · intro hfind
      by_cases htgt : lstripHash (elemAttr (Elem.mk "ref" a x cs l) "target") = ""
      · simp [element_to_markdown, SKIP_TAGS, h2, htgt]
      · simp [element_to_markdown, SKIP_TAGS, h2, htgt, hfind]

/-- Witness for C4: the marker citeElem resolves against the table of
refRoot to the Devlin label, and the marker citeBad with an unknown
target falls back to its raw text. -/
theorem c4_citation_marker_witness :
    element_to_markdown (parse_references refRoot) [] citeElem 0 ⟨[], []⟩
      = ("[" ++ "Devlin, 2019" ++ "]", ⟨[], []⟩)
    ∧ element_to_markdown (parse_references refRoot) [] citeBad 0 ⟨[], []⟩
      = ("[" ++ pyStrip (itertext citeBad) ++ "]", ⟨[], []⟩) := by
  constructor
  · have h := (c4_citation_marker refRoot [] citeElem 0 ⟨[], []⟩ (by decide) (by decide)).1
      ⟨"ref1", ["Devlin"], "2019", "BERT", "", "Devlin, 2019"⟩ (by decide)
    simpa using h
  · exact (c4_citation_marker refRoot [] citeBad 0 ⟨[], []⟩ (by decide) (by decide)).2
      (by decide)

-- State-evolution helper lemmas for the renderer: one rendering call
-- only ever appends to the used-footnote log, with the counters dict
-- tracking the log exactly.

mutual
theorem element_state_delta (refs : List (String × RefEntry)) (fns : List (String × String)) :
    ∀ (el : Elem) (d : Nat) (st : RenderState),
      ∃ t, (element_to_markdown refs fns el d st).2.used = st.used ++ t
        ∧ (element_to_markdown refs fns el d st).2.counters
            = st.counters ++ t.map (fun u => (u.2.1, u.1))
  | .mk tag attrs text cs tl, d, st => by
    simp only [element_to_markdown]
    by_cases h1 : tag ∈ SKIP_TAGS
    · rw [if_pos h1]; exact ⟨[], by simp⟩
    rw [if_neg h1]
    by_cases h2 : tag = "head"
    · rw [if_pos h2]; exact ⟨[], by simp⟩
    rw [if_neg h2]
    by_cases h3 : tag = "div"
    · rw [if_pos h3]
      rcases hh : (cs.toList.filter (fun c => c.tag == "head")).head? with _ | hd
      · simp only [hh]; simpa using loop_state_delta refs fns cs (d + 1) st
      · simp only [hh]
        by_cases hex : is_excluded_section (pyStrip (itertext hd)) = true
        · rw [if_pos hex]; exact ⟨[], by simp⟩
        · rw [if_neg hex]; simpa using loop_state_delta refs fns cs (d + 1) st
    rw [if_neg h3]
    by_cases h4 : tag = "ref" ∧ elemAttr (Elem.mk tag attrs text cs tl) "type" = "bibr"
    · rw [if_pos h4]
      by_cases ht : lstripHash (elemAttr (Elem.mk tag attrs text cs tl) "target") ≠ ""
      · rw [if_pos ht]
        rcases hf : dictFind refs (lstripHash (elemAttr (Elem.mk tag attrs text cs tl) "target"))
            with _ | r
        · simp only [hf]; exact ⟨[], by simp⟩
        · simp only [hf]; exact ⟨[], by simp⟩
      · rw [if_neg ht]; exact ⟨[], by simp⟩
    rw [if_neg h4]
    by_cases h5 : tag = "ref" ∧ elemAttr (Elem.mk tag attrs text cs tl) "type" = "foot"
    · rw [if_pos h5]
      rcases hf : dictFind fns (lstripHash (elemAttr (Elem.mk tag attrs text cs tl) "target"))
          with _ | txt
      · simp only [hf]; exact ⟨[], by simp⟩
      · simp only [hf]
        rcases hc : dictFind st.counters
            (lstripHash (elemAttr (Elem.mk tag attrs text cs tl) "target")) with _ | n
        · simp only [hc]
          exact ⟨[(st.counters.length + 1,
            lstripHash (elemAttr (Elem.mk tag attrs text cs tl) "target"), txt)], by simp⟩
        · simp only [hc]; exact ⟨[], by simp⟩
    rw [if_neg h5]
    by_cases h6 : tag = "p"
    · rw [if_pos h6]
      by_cases hp : pyStrip (leadText text ++ (child_loop refs fns cs d st).1) = ""
      · rw [if_pos hp]; simpa using loop_state_delta refs fns cs d st
      · rw [if_neg hp]; simpa using loop_state_delta refs fns cs d st
    · rw [if_neg h6]; simpa using loop_state_delta refs fns cs d st
theorem loop_state_delta (refs : List (String × RefEntry)) (fns : List (String × String)) :
    ∀ (cs : ElemList) (d : Nat) (st : RenderState),
      ∃ t, (child_loop refs fns cs d st).2.used = st.used ++ t
        ∧ (child_loop refs fns cs d st).2.counters
            = st.counters ++ t.map (fun u => (u.2.1, u.1))
  | .nil, d, st => ⟨[], by simp [child_loop]⟩
  | .cons c rest, d, st => by
    obtain ⟨t1, hu1, hc1⟩ := element_state_delta refs fns c d st
    obtain ⟨t2, hu2, hc2⟩ :=
      loop_state_delta refs fns rest d (element_to_markdown refs fns c d st).2
    refine ⟨t1 ++ t2, ?_, ?_⟩
    · simp only [child_loop]
      rw [hu2, hu1, List.append_assoc]
    · simp only [child_loop]
      rw [hc2, hc1, List.map_append, List.append_assoc]
end

theorem stateInv_snoc (st : RenderState) (hinv : StateInv st) (tgt txt : String) :
    StateInv ⟨st.counters ++ [(tgt, st.counters.length + 1)],
              st.used ++ [(st.counters.length + 1, tgt, txt)]⟩ := by
  obtain ⟨h1, h2⟩ := hinv
  have hlen : st.counters.length = st.used.length := by rw [h2, List.length_map]
  constructor
  · show (st.used ++ [(st.counters.length + 1, tgt, txt)]).map (fun u => u.1)
        = List.range' 1 (st.used ++ [(st.counters.length + 1, tgt, txt)]).length
    rw [List.map_append, h1, List.length_append, hlen]
    simp only [List.map_cons, List.map_nil, List.length_cons, List.length_nil]
    rw [List.range'_concat]
    simp [Nat.add_comm]
  · show st.counters ++ [(tgt, st.counters.length + 1)]
        = (st.used ++ [(st.counters.length + 1, tgt, txt)]).map (fun u => (u.2.1, u.1))
    rw [List.map_append, ← h2]
    simp

mutual
theorem element_state_inv (refs : List (String × RefEntry)) (fns : List (String × String)) :
    ∀ (el : Elem) (d : Nat) (st : RenderState), StateInv st →
      StateInv (element_to_markdown refs fns el d st).2
  | .mk tag attrs text cs tl, d, st => fun hinv => by
    simp only [element_to_markdown]
    by_cases h1 : tag ∈ SKIP_TAGS
    · rw [if_pos h1]; exact hinv
    rw [if_neg h1]
    by_cases h2 : tag = "head"
    · rw [if_pos h2]; exact hinv
    rw [if_neg h2]
    by_cases h3 : tag = "div"
    · rw [if_pos h3]
      rcases hh : (cs.toList.filter (fun c => c.tag == "head")).head? with _ | hd
      · simp only [hh]; exact loop_state_inv refs fns cs (d + 1) st hinv
      · simp only [hh]
        by_cases hex : is_excluded_section (pyStrip (itertext hd)) = true
        · rw [if_pos hex]; exact hinv
        · rw [if_neg hex]; exact loop_state_inv refs fns cs (d + 1) st hinv
    rw [if_neg h3]
    by_cases h4 : tag = "ref" ∧ elemAttr (Elem.mk tag attrs text cs tl) "type" = "bibr"
    · rw [if_pos h4]
      by_cases ht : lstripHash (elemAttr (Elem.mk tag attrs text cs tl) "target") ≠ ""
      · rw [if_pos ht]
        rcases hf : dictFind refs (lstripHash (elemAttr (Elem.mk tag attrs text cs tl) "target"))
            with _ | r
        · simp only [hf]; exact hinv
        · simp only [hf]; exact hinv
      · rw [if_neg ht]; exact hinv
    rw [if_neg h4]
    by_cases h5 : tag = "ref" ∧ elemAttr (Elem.mk tag attrs text cs tl) "type" = "foot"
    · rw [if_pos h5]
      rcases hf : dictFind fns (lstripHash (elemAttr (Elem.mk tag attrs text cs tl) "target"))
          with _ | txt
      · simp only [hf]; exact hinv
      · simp only [hf]
        rcases hc : dictFind st.counters
            (lstripHash (elemAttr (Elem.mk tag attrs text cs tl) "target")) with _ | n
        · simp only [hc]
          exact stateInv_snoc st hinv
            (lstripHash (elemAttr (Elem.mk tag attrs text cs tl) "target")) txt
        · simp only [hc]; exact hinv
    rw [if_neg h5]
    by_cases h6 : tag = "p"
    · rw [if_pos h6]
      by_cases hp : pyStrip (leadText text ++ (child_loop refs fns cs d st).1) = ""
      · rw [if_pos hp]; exact loop_state_inv refs fns cs d st hinv
      · rw [if_neg hp]; exact loop_state_inv refs fns cs d st hinv
    · rw [if_neg h6]; exact loop_state_inv refs fns cs d st hinv
theorem loop_state_inv (refs : List (String × RefEntry)) (fns : List (String × String)) :
    ∀ (cs : ElemList) (d : Nat) (st : RenderState), StateInv st →
      StateInv (child_loop refs fns cs d st).2
  | .nil, _, st => fun h => h
  | .cons c rest, d, st => fun h => by
    simp only [child_loop]
    exact loop_state_inv refs fns rest d _ (element_state_inv refs fns c d st h)
end

theorem sortByFst_of_consecutive :
    ∀ (l : List (Nat × String × String)) (s : Nat),
      l.map (fun u => u.1) = List.range' s l.length → sortByFst l = l
  | [], _, _ => rfl
  | x :: xs, s, h => by
    simp only [List.map_cons, List.length_cons, List.range'_succ, List.cons.injEq] at h
    obtain ⟨hx, hxs⟩ := h
    rw [sortByFst, sortByFst_of_consecutive xs (s + 1) hxs]
    cases xs with
    | nil => rfl
    | cons y ys =>
      have hy : y.1 = s + 1 := by
        simp only [List.map_cons, List.length_cons, List.range'_succ, List.cons.injEq] at hxs
        exact hxs.1
      simp only [insertByFst]
      rw [if_pos (by rw [hx, hy]; exact Nat.le_succ s)]

theorem foot_marker_render (refs : List (String × RefEntry)) (fns : List (String × String))
    (el : Elem) (d : Nat) (st : RenderState)
    (h1 : el.tag = "ref") (h2 : elemAttr el "type" = "foot") :
    (∀ txt, dictFind fns (lstripHash (elemAttr el "target")) = some txt →
      (dictFind st.counters (lstripHash (elemAttr el "target")) = none →
        element_to_markdown refs fns el d st
          = ("[^" ++ toString (st.counters.length + 1) ++ "]",
             ⟨st.counters ++ [(lstripHash (elemAttr el "target"), st.counters.length + 1)],
              st.used ++ [(st.counters.length + 1, lstripHash (elemAttr el "target"), txt)]⟩))
      ∧ (∀ n, dictFind st.counters (lstripHash (elemAttr el "target")) = some n →
        element_to_markdown refs fns el d st = ("[^" ++ toString n ++ "]", st)))
    ∧ (dictFind fns (lstripHash (elemAttr el "target")) = none →
        element_to_markdown refs fns el d st = ("", st)) := by
  cases el with
  | mk t a x cs l =>
    simp only [Elem.tag_mk] at h1
    subst h1
    have hb : ¬ ("ref" = "ref" ∧ elemAttr (Elem.mk "ref" a x cs l) "type" = "bibr") := by
      intro hcon
      rw [h2] at hcon
      simp at hcon
    constructor
    · intro txt hf
      constructor
      · intro hc
        simp [element_to_markdown, SKIP_TAGS, hb, h2, hf, hc]
      · intro n hc
        simp [element_to_markdown, SKIP_TAGS, hb, h2, hf, hc]
    · intro hf
      simp [element_to_markdown, SKIP_TAGS, hb, h2, hf]

/-- C2: in one rendering pass footnote ordinals are 1-based and
consecutive in order of first encounter along the depth-first traversal
(the used log always reads 1, 2, ... and only grows at the end), a
marker whose resolved target is new is assigned ordinal one past the
count of already-used footnotes, a marker whose target already has an
ordinal reuses it and leaves the state unchanged, and the Footnotes
section lists exactly the used footnotes sorted by ordinal, each as a
caret-n line with its text. -/
theorem c2_footnote_numbering (refs : List (String × RefEntry)) (fns : List (String × String))
    (el : Elem) (d : Nat) (st : RenderState) (hinv : StateInv st) :
    StateInv (element_to_markdown refs fns el d st).2
  ∧ (∃ t, (element_to_markdown refs fns el d st).2.used = st.used ++ t)
  ∧ ((element_to_markdown refs fns el d st).2.used.map (fun u => u.1)
      = List.range' 1 (element_to_markdown refs fns el d st).2.used.length)
  ∧ (el.tag = "ref" → elemAttr el "type" = "foot" →
      ∀ txt, dictFind fns (lstripHash (elemAttr el "target")) = some txt →
        (dictFind st.counters (lstripHash (elemAttr el "target")) = none →
          element_to_markdown refs fns el d st
            = ("[^" ++ toString (st.used.length + 1) ++ "]",
               ⟨st.counters ++ [(lstripHash (elemAttr el "target"), st.used.length + 1)],
                st.used ++ [(st.used.length + 1, lstripHash (elemAttr el "target"), txt)]⟩))
        ∧ (∀ n, dictFind st.counters (lstripHash (elemAttr el "target")) = some n →
          element_to_markdown refs fns el d st = ("[^" ++ toString n ++ "]", st)))
  ∧ footnotesSectionOf (element_to_markdown refs fns el d st).2.used
      = "\n\n---\n\n## Footnotes\n\n"
        ++ strJoin ((element_to_markdown refs fns el d st).2.used.map
            (fun u => "[^" ++ toString u.1 ++ "]: " ++ u.2.2 ++ "\n\n")) := by
  have hinv2 := element_state_inv refs fns el d st hinv
  have hdelta := element_state_delta refs fns el d st
  have hlen : st.counters.length = st.used.length := by rw [hinv.2, List.length_map]
  refine ⟨hinv2, ⟨hdelta.choose, hdelta.choose_spec.1⟩, hinv2.1, ?_, ?_⟩
  · intro h1 h2 txt hf
    obtain ⟨ha, hb⟩ := (foot_marker_render refs fns el d st h1 h2).1 txt hf
    constructor
    · intro hc
      rw [← hlen]
      exact ha hc
    · exact hb
  · unfold footnotesSectionOf
    rw [sortByFst_of_consecutive _ 1 hinv2.1]

/-- Witness for C2: rendering the single footnote marker footElem from
the empty state assigns ordinal 1 and logs the footnote. -/
theorem c2_footnote_numbering_witness :
    StateInv ⟨[], []⟩
    ∧ element_to_markdown [] fns1 footElem 0 ⟨[], []⟩
        = ("[^1]", ⟨[("f1", 1)], [(1, "f1", "Note one")]⟩) :=
  ⟨by constructor <;> rfl,
   by
    have h := ((c2_footnote_numbering [] fns1 footElem 0 ⟨[], []⟩
        ⟨by rfl, by rfl⟩).2.2.2.1 rfl rfl "Note one" (by rfl)).1 (by rfl)
    exact h⟩

/-- C7: the caller-side empty-output gate fails with the empty-markdown
error whenever the assembled string is empty or whitespace-only, and a
successfully returned artifact is never blank; the checked pipeline is
exactly this gate applied to the transform result. -/
theorem c7_empty_output_gate (md : String) :
    (pyStrip md = "" → checkOutput md = Except.error "Empty markdown output")
  ∧ (∀ out, checkOutput md = Except.ok out → out = md ∧ pyStrip out ≠ "")
  ∧ (∀ root : Elem, extract_markdown_checked root = checkOutput (extract_markdown root)) := by
  refine ⟨?_, ?_, fun _ => rfl⟩
  · intro h
    simp [checkOutput, h]
  · intro out hok
    unfold checkOutput at hok
    split_ifs at hok with h
    cases hok
    exact ⟨rfl, h⟩

/-- Witness for C7: the blank string " " is rejected by the gate with
the empty-markdown error. -/
theorem c7_empty_output_gate_witness :
    pyStrip " \n " = "" ∧ checkOutput " \n " = Except.error "Empty markdown output" :=
  ⟨by decide, (c7_empty_output_gate " \n ").1 (by decide)⟩

/-- C8: code-bug evidence for the generic-container branch — on the
element hiElem with leading text x and no children, the renderer emits
the leading text twice (once from the default-branch lead, once from the
children helper which also prepends it), while the children helper alone
emits it exactly once. -/
theorem c8_generic_leading_text_doubled :
    element_to_markdown [] [] hiElem 0 ⟨[], []⟩ = ("xx", ⟨[], []⟩)
    ∧ hiElem.text = "x"
    ∧ children_to_markdown [] [] hiElem 0 ⟨[], []⟩ = ("x", ⟨[], []⟩) :=
  ⟨rfl, rfl, rfl⟩

/-- C9: the transform is a pure function of the parsed document — equal
inputs give byte-identical markdown. -/
theorem c9_deterministic (root1 root2 : Elem) (h : root1 = root2) :
    extract_markdown root1 = extract_markdown root2 :=
  congrArg extract_markdown h

/-- Witness for C9 at the empty document. -/
theorem c9_deterministic_witness :
    emptyDoc = emptyDoc ∧ extract_markdown emptyDoc = extract_markdown emptyDoc :=
  ⟨rfl, c9_deterministic emptyDoc emptyDoc rfl⟩

theorem extract_markdown_decomp (root : Elem) :
    extract_markdown root =
      ((if !(docTitle root == "") then "# " ++ docTitle root ++ "\n\n" else "")
        ++ (if docAuthors root ≠ [] then
              "**Authors:** " ++ joinSep ", " (docAuthors root) ++ "\n\n" else ""))
      ++ ("---\n\n"
        ++ (abstractSection root
          ++ ((renderDivs (parse_references root) (parse_footnotes root)
                (bodyDivs root) ⟨[], []⟩).1
            ++ ((if (renderDivs (parse_references root) (parse_footnotes root)
                      (bodyDivs root) ⟨[], []⟩).2.used ≠ [] then
                  footnotesSectionOf (renderDivs (parse_references root)
                    (parse_footnotes root) (bodyDivs root) ⟨[], []⟩).2.used else "")
              ++ (if parse_references root ≠ [] then
                    referencesSectionOf (parse_references root) else ""))))) := by
  simp only [extract_markdown]
  simp [String.append_assoc]

/-- C10: the assembled markdown always contains the horizontal-rule
fragment (emitted unconditionally after the author block), hence the
result is never the empty string and never whitespace-only. -/
theorem c10_rule_always_present (root : Elem) :
    (∃ a b : String, extract_markdown root = a ++ ("---\n\n" ++ b))
  ∧ extract_markdown root ≠ ""
  ∧ wsOnly (extract_markdown root) = false := by
  obtain ⟨a, b, hab⟩ :
      ∃ a b : String, extract_markdown root = a ++ ("---\n\n" ++ b) :=
    ⟨_, _, extract_markdown_decomp root⟩
  have hd : (extract_markdown root).data = a.data ++ (("---\n\n").data ++ b.data) := by
    rw [hab, String.data_append, String.data_append]
  refine ⟨⟨a, b, hab⟩, ?_, ?_⟩
  · intro hempty
    rw [hempty] at hd
    have hlen := congrArg List.length hd
    simp [List.length_append] at hlen
    omega
  · unfold wsOnly
    rw [hd, List.all_append, List.all_append]
    have hhr : ("---\n\n").data.all pyIsSpace = false := by decide
    rw [hhr]
    simp
